import Mathlib

/-!
# PDF steganography embed/extract: a shallow embedding

This file models the two scripts of the repository over byte lists
(`List Nat`, each element a byte value 0..255):

* `index.js` — `embedImageInPDF`: deflates an image, builds a new PDF
  indirect object around the compressed bytes, and splices it into the
  original PDF immediately before the first occurrence of `"xref"`.
* `final_extract.js` — the top-level extraction script: locates the
  literal `"111 0 obj"`, slices the bytes between `"stream\n"` and
  `"\nendstream"`, inflates them and validates a JPEG magic prefix.

DEFLATE compression itself is an external library (`zlib`); the model
abstracts it as an arbitrary `inf : List Nat → Option (List Nat)`
parameter on the extraction side and as an arbitrary compressed byte
list on the embedding side.  All structural byte manipulation — the
searches, the object grammar, the splice, the slicing, the branch
structure of the extractor — is modelled faithfully, including Node's
`Buffer.indexOf` treatment of negative offsets and the `-1` sentinel.
-/

/-- Bytes of an ASCII/latin1 string literal, one byte per character
(the scripts only use ASCII markers). -/
def strBytes (s : String) : List Nat := s.data.map Char.toNat

/-- Fuel-indexed worker for `decBytes`; the fuel only forces structural
recursion (any fuel above the number of digits gives the same answer). -/
def decBytesAux (fuel n : Nat) : List Nat :=
  match fuel with
  | 0 => []
  | fuel + 1 => if n < 10 then [48 + n] else decBytesAux fuel (n / 10) ++ [48 + n % 10]

/-- Decimal representation of a natural number as ASCII digit bytes;
models JavaScript template-literal formatting of a nonnegative integer
(`${newObjNum}`, `${compressedImage.length}`). -/
def decBytes (n : Nat) : List Nat := decBytesAux (n + 1) n

/-- Base-10 value of a run of ASCII digit bytes; models
`parseInt(digits, 10)` on the digit run captured by the regex. -/
def parseDec (ds : List Nat) : Nat := ds.foldl (fun a d => a * 10 + (d - 48)) 0

/-- `0x30 ≤ b ≤ 0x39`, i.e. the byte is an ASCII digit — what `\d`
matches on a latin1-decoded buffer. -/
def isDigitByte (b : Nat) : Bool := 48 ≤ b && b ≤ 57

/-- The pattern `pat` occurs in `buf` starting at index `i`. -/
def patAt (pat buf : List Nat) (i : Nat) : Prop :=
  (buf.drop i).take pat.length = pat

instance (pat buf : List Nat) (i : Nat) : Decidable (patAt pat buf i) := by
  unfold patAt; exact inferInstance

/-- Worker for `firstOccurFrom`: scan the suffix `l` of the buffer,
reporting the absolute index `i` of the first position whose bytes start
with `pat` (a suffix shorter than `pat` cannot match, since `take` then
yields a shorter list). -/
def focAux (pat : List Nat) (i : Nat) : List Nat → Option Nat
  | [] => none
  | b :: rest =>
    if (b :: rest).take pat.length = pat then some i else focAux pat (i + 1) rest

/-- Index of the first occurrence of `pat` in `buf` at or after `s`,
or `none`; models `Buffer.indexOf` (with a nonnegative start). -/
def firstOccurFrom (pat buf : List Nat) (s : Nat) : Option Nat :=
  focAux pat s (buf.drop s)

/-- `Buffer.indexOf(pat, off)` with Node's offset semantics: a negative
`off` counts from the end of the buffer (floored at 0), and the result
is the match index or `-1`. -/
def idxOf (pat buf : List Nat) (off : Int) : Int :=
  match firstOccurFrom pat buf
      (if off < 0 then ((buf.length : Int) + off).toNat else off.toNat) with
  | some i => (i : Int)
  | none => -1

/-- `buf.subarray(a, b)` with Node's semantics: negative bounds count
from the end (floored at 0), bounds are clamped to the buffer, and an
inverted range yields the empty slice. -/
def subarrayInt (buf : List Nat) (a b : Int) : List Nat :=
  (buf.take (if b < 0 then ((buf.length : Int) + b).toNat else b.toNat)).drop
    (if a < 0 then ((buf.length : Int) + a).toNat else a.toNat)

/-! ## Embedder (`index.js`) -/

/-- All numbers matched by the global regex `/(\d+) 0 obj/g` run over the
latin1 decoding of the buffer, in match order.  At each position the
regex can only succeed by taking the maximal digit run (the next pattern
character is a space, which is not a digit), and after a match the scan
resumes immediately after the matched text (`lastIndex`). -/
def scanObjNumsAux (fuel : Nat) (l : List Nat) : List Nat :=
  match fuel with
  | 0 => []
  | fuel + 1 =>
    match l with
    | [] => []
    | b :: rest =>
      let ds := (b :: rest).takeWhile isDigitByte
      if ds ≠ [] ∧ ((b :: rest).drop ds.length).take 6 = strBytes " 0 obj" then
        parseDec ds :: scanObjNumsAux fuel ((b :: rest).drop (ds.length + 6))
      else scanObjNumsAux fuel rest

/-- Run the scan with enough fuel to exhaust the buffer (every step of
the loop consumes at least one byte). -/
def scanObjNums (l : List Nat) : List Nat := scanObjNumsAux l.length l

/-- `maxObjNum`: the running maximum (starting from 0) of all matched
object numbers. -/
def findHighestObjectNumber (buf : List Nat) : Nat :=
  (scanObjNums buf).foldl max 0

/-- `newObjNum = maxObjNum + 1`. -/
def newObjNum (buf : List Nat) : Nat := findHighestObjectNumber buf + 1

/-- `objHeader`: the bytes of
`` `${n} 0 obj\n<< /Length ${L} /Filter /FlateDecode >>\nstream\n` ``. -/
def objHeader (n L : Nat) : List Nat :=
  decBytes n ++ strBytes " 0 obj\n<< /Length " ++ decBytes L ++
    strBytes " /Filter /FlateDecode >>\nstream\n"

/-- `objFooter = "\nendstream\nendobj\n"`. -/
def objFooter : List Nat := strBytes "\nendstream\nendobj\n"

/-- `newObject = Buffer.concat([objHeader, compressedImage, objFooter])`. -/
def buildObject (n : Nat) (compressedImage : List Nat) : List Nat :=
  objHeader n compressedImage.length ++ compressedImage ++ objFooter

/-- `Buffer.concat([original.subarray(0, off), newObjectBytes, original.subarray(off)])`. -/
def splice (original newObjectBytes : List Nat) (insertionOffset : Nat) : List Nat :=
  original.take insertionOffset ++ newObjectBytes ++ original.drop insertionOffset

/-- The pattern `"xref"` searched by the embedder. -/
def xrefPat : List Nat := strBytes "xref"

/-- The pure core of `embedImageInPDF`, parameterised by the already
compressed image bytes (`zlib.deflateSync` is external): find the first
`"xref"`, throw if absent, otherwise splice the built object in at that
offset.  The result buffer is what `fs.writeFileSync` persists. -/
def embedBytes (pdfData compressedImage : List Nat) : Except String (List Nat) :=
  match firstOccurFrom xrefPat pdfData 0 with
  | none => Except.error "XREF table not found - invalid PDF format"
  | some xrefPos =>
    Except.ok (splice pdfData (buildObject (newObjNum pdfData) compressedImage) xrefPos)

/-! ## Extractor (`final_extract.js`) -/

/-- The fixed pattern `"111 0 obj"` searched by the extraction script. -/
def obj111Pat : List Nat := strBytes "111 0 obj"

/-- The pattern `"stream\n"`. -/
def streamPat : List Nat := strBytes "stream\n"

/-- The pattern `"\nendstream"`. -/
def endstreamPat : List Nat := strBytes "\nendstream"

/-- `const obj111Start = pdfData.indexOf('111 0 obj')`. -/
def obj111StartOf (pdfData : List Nat) : Int := idxOf obj111Pat pdfData 0

/-- `const streamStart = pdfData.indexOf('stream\n', obj111Start) + 7`.
Note the `+ 7` is applied before any check, so this value is never `-1`
(it is at least `6`). -/
def streamStartOf (pdfData : List Nat) : Int :=
  idxOf streamPat pdfData (obj111StartOf pdfData) + 7

/-- `const endstreamPos = pdfData.indexOf('\nendstream', streamStart)`. -/
def endstreamPosOf (pdfData : List Nat) : Int :=
  idxOf endstreamPat pdfData (streamStartOf pdfData)

/-- `const streamData = pdfData.subarray(streamStart, endstreamPos)`. -/
def streamDataOf (pdfData : List Nat) : List Nat :=
  subarrayInt pdfData (streamStartOf pdfData) (endstreamPosOf pdfData)

/-- Observable outcome of one run of `final_extract.js`:

* `boundaryFail` — the `obj111Start === -1 || streamStart === -1 ||
  endstreamPos === -1` check fired: `process.exit(1)`, no file written;
* `success bytes` — `bytes` written to `final_recovered.jpg`;
* `notJpeg bytes` — decompressed bytes lack the `FF D8` magic, written
  to `mystery_data.bin`;
* `inflateFail raw` — `zlib.inflateSync` threw, caught, raw slice
  written to `raw_stream.bin`;
* `notZlib raw` — first byte of the slice is not `0x78`, raw slice
  written to `raw_stream.bin`;
* `crash` — an uncaught `TypeError`: the slice is empty, so
  `streamData[0]` is `undefined` and `streamData[0].toString(16)` on the
  not-zlib logging line throws outside any `try`, terminating the
  process before any diagnostic file is written. -/
inductive ExtractResult
  | boundaryFail
  | success (bytes : List Nat)
  | notJpeg (bytes : List Nat)
  | inflateFail (raw : List Nat)
  | notZlib (raw : List Nat)
  | crash
deriving DecidableEq

/-- The extraction script, parameterised by the external inflate
primitive `inf` (`zlib.inflateSync`, with `none` modelling a thrown
decompression error). -/
def extractRun (inf : List Nat → Option (List Nat)) (pdfData : List Nat) : ExtractResult :=
  if obj111StartOf pdfData = -1 ∨ streamStartOf pdfData = -1 ∨ endstreamPosOf pdfData = -1 then
    ExtractResult.boundaryFail
  else if (streamDataOf pdfData)[0]? = some 0x78 then
    match inf (streamDataOf pdfData) with
    | some decompressed =>
      if decompressed[0]? = some 0xFF ∧ decompressed[1]? = some 0xD8 then
        ExtractResult.success decompressed
      else ExtractResult.notJpeg decompressed
    | none => ExtractResult.inflateFail (streamDataOf pdfData)
  else
    match streamDataOf pdfData with
    | [] => ExtractResult.crash
    | _ :: _ => ExtractResult.notZlib (streamDataOf pdfData)

/-! ## Pattern-occurrence infrastructure -/

theorem patAt_le {pat buf : List Nat} {i : Nat} (h : patAt pat buf i) :
    pat.length ≤ buf.length - i := by
  have hl := congrArg List.length h
  simp only [List.length_take, List.length_drop] at hl
  omega

theorem patAt_length {pat buf : List Nat} {i : Nat} (hp : pat ≠ []) (h : patAt pat buf i) :
    i + pat.length ≤ buf.length := by
  have h1 := patAt_le h
  have h2 : pat.length ≠ 0 := by
    intro h0; exact hp (List.eq_nil_of_length_eq_zero h0)
  omega

theorem patAt_getElem? {pat buf : List Nat} {i : Nat} (h : patAt pat buf i) :
    ∀ k, k < pat.length → buf[i + k]? = pat[k]? := by
  intro k hk
  conv_rhs => rw [← h]
  rw [List.getElem?_take_of_lt hk, List.getElem?_drop]

theorem patAt_of_getElem? {pat buf : List Nat} {i : Nat}
    (_hlen : i + pat.length ≤ buf.length)
    (h : ∀ k, k < pat.length → buf[i + k]? = pat[k]?) : patAt pat buf i := by
  apply List.ext_getElem?_iff.mpr
  intro m
  by_cases hm : m < pat.length
  · rw [List.getElem?_take_of_lt hm, List.getElem?_drop, h m hm]
  · have h1 : pat[m]? = none := List.getElem?_eq_none_iff.mpr (by omega)
    have h2 : ((buf.drop i).take pat.length)[m]? = none := by
      apply List.getElem?_eq_none_iff.mpr
      simp only [List.length_take, List.length_drop]
      omega
    rw [h1, h2]

theorem patAt_append_left {pat A B : List Nat} {j : Nat} (h : patAt pat A j)
    (hle : j + pat.length ≤ A.length) : patAt pat (A ++ B) j := by
  apply patAt_of_getElem? (by simp; omega)
  intro k hk
  rw [List.getElem?_append, if_pos (by omega)]
  exact patAt_getElem? h k hk

theorem patAt_of_append_left {pat A B : List Nat} {j : Nat} (h : patAt pat (A ++ B) j)
    (hle : j + pat.length ≤ A.length) : patAt pat A j := by
  apply patAt_of_getElem? hle
  intro k hk
  have := patAt_getElem? h k hk
  rwa [List.getElem?_append, if_pos (by omega)] at this

theorem patAt_append_right {pat A B : List Nat} {j : Nat} (h : patAt pat B j) :
    patAt pat (A ++ B) (A.length + j) := by
  unfold patAt at h ⊢
  rwa [List.drop_append]

theorem patAt_of_append_right {pat A B : List Nat} {j : Nat} (h : patAt pat (A ++ B) j)
    (hge : A.length ≤ j) : patAt pat B (j - A.length) := by
  unfold patAt at h ⊢
  rwa [show j = A.length + (j - A.length) by omega, List.drop_append] at h

theorem patAt_self_head (pat t : List Nat) : patAt pat (pat ++ t) 0 := by
  unfold patAt
  simp [List.take_left']

theorem focAux_eq_some {pat : List Nat} :
    ∀ (l : List Nat) (i j : Nat), focAux pat i l = some j →
      i ≤ j ∧ (l.drop (j - i)).take pat.length = pat ∧
        ∀ m, m < j - i → (l.drop m).take pat.length ≠ pat := by
  intro l
  induction l with
  | nil => intro i j h; simp [focAux] at h
  | cons b rest ih =>
    intro i j h
    rw [focAux] at h
    by_cases hc : (b :: rest).take pat.length = pat
    · rw [if_pos hc] at h
      obtain rfl : i = j := by simpa using h
      refine ⟨le_refl _, by simpa using hc, fun m hm => by omega⟩
    · rw [if_neg hc] at h
      obtain ⟨h1, h2, h3⟩ := ih (i + 1) j h
      refine ⟨by omega, ?_, ?_⟩
      · rw [show j - i = (j - (i + 1)) + 1 by omega, List.drop_succ_cons]
        exact h2
      · intro m hm
        match m with
        | 0 => simpa using hc
        | m + 1 =>
          rw [List.drop_succ_cons]
          exact h3 m (by omega)

theorem focAux_eq_none {pat : List Nat} (hp : pat ≠ []) :
    ∀ (l : List Nat) (i : Nat), focAux pat i l = none →
      ∀ m, (l.drop m).take pat.length ≠ pat := by
  intro l
  induction l with
  | nil =>
    intro i _ m
    simp only [List.drop_nil, List.take_nil]
    exact fun h => hp h.symm
  | cons b rest ih =>
    intro i h m
    rw [focAux] at h
    by_cases hc : (b :: rest).take pat.length = pat
    · rw [if_pos hc] at h; exact absurd h (by simp)
    · rw [if_neg hc] at h
      match m with
      | 0 => simpa using hc
      | m + 1 =>
        rw [List.drop_succ_cons]
        exact ih (i + 1) h m

theorem focAux_eq_some_of {pat : List Nat} (hp : pat ≠ []) :
    ∀ (l : List Nat) (i k : Nat), (l.drop k).take pat.length = pat →
      (∀ m, m < k → (l.drop m).take pat.length ≠ pat) →
      focAux pat i l = some (i + k) := by
  intro l
  induction l with
  | nil =>
    intro i k hk _
    simp only [List.drop_nil, List.take_nil] at hk
    exact absurd hk.symm hp
  | cons b rest ih =>
    intro i k hk hmin
    match k with
    | 0 =>
      rw [focAux, if_pos (by simpa using hk)]
      simp
    | k + 1 =>
      rw [focAux, if_neg (by simpa using hmin 0 (by omega)),
        show i + (k + 1) = (i + 1) + k by omega]
      exact ih (i + 1) k (by simpa using hk)
        (fun m hm => by simpa using hmin (m + 1) (by omega))

theorem firstOccurFrom_eq_some (pat buf : List Nat) (s i : Nat)
    (h : firstOccurFrom pat buf s = some i) :
    s ≤ i ∧ patAt pat buf i ∧ ∀ j, s ≤ j → j < i → ¬ patAt pat buf j := by
  unfold firstOccurFrom at h
  obtain ⟨h1, h2, h3⟩ := focAux_eq_some (buf.drop s) s i h
  rw [List.drop_drop, show s + (i - s) = i by omega] at h2
  refine ⟨h1, h2, fun j hj1 hj2 hpat => ?_⟩
  apply h3 (j - s) (by omega)
  rw [List.drop_drop, show s + (j - s) = j by omega]
  exact hpat

theorem firstOccurFrom_eq_none (pat buf : List Nat) (s : Nat) (hp : pat ≠ [])
    (h : firstOccurFrom pat buf s = none) : ∀ j, s ≤ j → ¬ patAt pat buf j := by
  unfold firstOccurFrom at h
  intro j hj hpat
  apply focAux_eq_none hp (buf.drop s) s h (j - s)
  rw [List.drop_drop, show s + (j - s) = j by omega]
  exact hpat

theorem firstOccurFrom_eq_some_of (pat buf : List Nat) (s i : Nat) (hp : pat ≠ [])
    (hi : patAt pat buf i) (hs : s ≤ i)
    (hmin : ∀ j, s ≤ j → j < i → ¬ patAt pat buf j) :
    firstOccurFrom pat buf s = some i := by
  unfold firstOccurFrom
  rw [show i = s + (i - s) by omega]
  apply focAux_eq_some_of hp
  · rw [List.drop_drop, show s + (i - s) = i by omega]
    exact hi
  · intro m hm
    rw [List.drop_drop]
    have := hmin (s + m) (by omega) (by omega)
    unfold patAt at this
    exact this

/-! ## Decimal formatting and max-fold lemmas -/

theorem decBytesAux_fuel (m : Nat) : ∀ f₁ f₂, m < f₁ → m < f₂ →
    decBytesAux f₁ m = decBytesAux f₂ m := by
  induction m using Nat.strong_induction_on with
  | _ m ih =>
    intro f₁ f₂ h₁ h₂
    obtain ⟨g₁, rfl⟩ : ∃ k, f₁ = k + 1 := ⟨f₁ - 1, by omega⟩
    obtain ⟨g₂, rfl⟩ : ∃ k, f₂ = k + 1 := ⟨f₂ - 1, by omega⟩
    simp only [decBytesAux]
    by_cases hm : m < 10
    · rw [if_pos hm, if_pos hm]
    · rw [if_neg hm, if_neg hm,
        ih (m / 10) (Nat.div_lt_self (by omega) (by omega)) g₁ g₂ (by omega) (by omega)]

/-- The natural unfolding of `decBytes`. -/
theorem decBytes_eq (n : Nat) :
    decBytes n = if n < 10 then [48 + n] else decBytes (n / 10) ++ [48 + n % 10] := by
  show decBytesAux (n + 1) n = _
  by_cases h : n < 10
  · rw [if_pos h]
    simp only [decBytesAux, if_pos h]
  · rw [if_neg h]
    simp only [decBytesAux, if_neg h]
    rw [decBytesAux_fuel (n / 10) n (n / 10 + 1) (by omega) (by omega)]
    rfl

theorem decBytes_ne_nil (n : Nat) : decBytes n ≠ [] := by
  rw [decBytes_eq]
  split <;> simp

theorem decBytes_digits (n : Nat) : ∀ b ∈ decBytes n, 48 ≤ b ∧ b ≤ 57 := by
  intro b hb
  rw [decBytes_eq] at hb
  by_cases h : n < 10
  · rw [if_pos h] at hb
    simp only [List.mem_singleton] at hb
    omega
  · rw [if_neg h, List.mem_append] at hb
    rcases hb with hb | hb
    · exact decBytes_digits (n / 10) b hb
    · simp only [List.mem_singleton] at hb
      have : n % 10 < 10 := Nat.mod_lt _ (by omega)
      omega
termination_by n
decreasing_by exact Nat.div_lt_self (by omega) (by omega)

theorem parseDec_decBytes (n : Nat) : parseDec (decBytes n) = n := by
  rw [decBytes_eq]
  by_cases h : n < 10
  · rw [if_pos h]
    simp only [parseDec, List.foldl_cons, List.foldl_nil]
    omega
  · rw [if_neg h]
    unfold parseDec
    rw [List.foldl_append]
    simp only [List.foldl_cons, List.foldl_nil]
    have ih := parseDec_decBytes (n / 10)
    unfold parseDec at ih
    rw [ih]
    omega
termination_by n
decreasing_by exact Nat.div_lt_self (by omega) (by omega)

theorem le_foldl_max (l : List Nat) (a : Nat) : a ≤ l.foldl max a := by
  induction l generalizing a with
  | nil => simp
  | cons x t ih =>
    simp only [List.foldl_cons]
    exact le_trans (Nat.le_max_left a x) (ih (max a x))

theorem mem_le_foldl_max (l : List Nat) (a n : Nat) (h : n ∈ l) : n ≤ l.foldl max a := by
  induction l generalizing a with
  | nil => simp at h
  | cons x t ih =>
    simp only [List.foldl_cons]
    rcases List.mem_cons.mp h with rfl | hm
    · exact le_trans (Nat.le_max_right a n) (le_foldl_max t _)
    · exact ih _ hm

/-! ## Claim C2: splice contract and non-interference -/

/-- C2: the embedder's output buffer is exactly
`original[0:insertionOffset] ++ newObjectBytes ++ original[insertionOffset:]`;
every byte below the insertion offset is unchanged, and every byte at or
above it reappears shifted by exactly `newObjectBytes.length`. -/
theorem c2_splice_contract (original newObjectBytes : List Nat) (insertionOffset : Nat)
    (hoff : insertionOffset ≤ original.length) :
    splice original newObjectBytes insertionOffset =
      original.take insertionOffset ++ newObjectBytes ++ original.drop insertionOffset ∧
    (∀ i, i < insertionOffset →
      (splice original newObjectBytes insertionOffset)[i]? = original[i]?) ∧
    (∀ i, insertionOffset ≤ i →
      (splice original newObjectBytes insertionOffset)[i + newObjectBytes.length]? =
        original[i]?) := by
  refine ⟨rfl, fun i hi => ?_, fun i hi => ?_⟩
  · unfold splice
    rw [List.append_assoc, List.getElem?_append,
      if_pos (by rw [List.length_take]; omega), List.getElem?_take_of_lt hi]
  · unfold splice
    rw [List.append_assoc, List.getElem?_append,
      if_neg (by rw [List.length_take]; omega), List.length_take,
      Nat.min_eq_left hoff, List.getElem?_append,
      if_neg (by omega),
      show i + newObjectBytes.length - insertionOffset - newObjectBytes.length
        = i - insertionOffset by omega,
      List.getElem?_drop,
      show insertionOffset + (i - insertionOffset) = i by omega]

/-- Witness for C2 at a concrete input. -/
theorem c2_splice_contract_witness :
    (splice [1, 2, 3] [9] 2)[1]? = ([1, 2, 3] : List Nat)[1]? ∧
    (splice [1, 2, 3] [9] 2)[2 + 1]? = ([1, 2, 3] : List Nat)[2]? :=
  ⟨(c2_splice_contract [1, 2, 3] [9] 2 (by decide)).2.1 1 (by decide),
   (c2_splice_contract [1, 2, 3] [9] 2 (by decide)).2.2 2 (by decide)⟩

/-! ## Claim C4: object numbering -/

/-- C4: the embedder assigns object number `findHighestObjectNumber + 1`
(the maximum over all regex matches, or 0 when there is none, plus one),
which is strictly greater than every matched object number. -/
theorem c4_object_numbering (buf : List Nat) :
    newObjNum buf = findHighestObjectNumber buf + 1 ∧
    ∀ n, n ∈ scanObjNums buf → n < newObjNum buf := by
  refine ⟨rfl, fun n hn => ?_⟩
  have h := mem_le_foldl_max (scanObjNums buf) 0 n hn
  unfold newObjNum findHighestObjectNumber
  omega

/-- Witness for C4 at a concrete input containing `"7 0 obj"`. -/
theorem c4_object_numbering_witness : (7 : Nat) < newObjNum (strBytes "7 0 obj") :=
  (c4_object_numbering (strBytes "7 0 obj")).2 7 (by decide)

/-! ## Claim C5: object grammar -/

/-- C5: the built object is exactly
`"{N} 0 obj\n<< /Length {L} /Filter /FlateDecode >>\nstream\n"`,
followed by the `L` payload bytes, followed by `"\nendstream\nendobj\n"`,
with `L` the payload length rendered in decimal; and the declared
`/Length` digit run, parsed base-10, equals the exact byte length of the
payload that follows. -/
theorem c5_object_grammar (n : Nat) (c : List Nat) :
    buildObject n c =
      decBytes n ++ strBytes " 0 obj\n<< /Length " ++ decBytes c.length ++
        strBytes " /Filter /FlateDecode >>\nstream\n" ++ c ++
        strBytes "\nendstream\nendobj\n" ∧
    parseDec (decBytes c.length) = c.length := by
  constructor
  · unfold buildObject objHeader objFooter
    simp [List.append_assoc]
  · exact parseDec_decBytes c.length

/-! ## `idxOf` and `subarrayInt` on nonnegative offsets -/

theorem idxOf_nat (pat buf : List Nat) (s : Nat) :
    idxOf pat buf (s : Int) =
      (match firstOccurFrom pat buf s with
       | some i => (i : Int)
       | none => -1) := by
  unfold idxOf
  rw [if_neg (by omega), Int.toNat_ofNat]

theorem idxOf_zero (pat buf : List Nat) :
    idxOf pat buf 0 =
      (match firstOccurFrom pat buf 0 with
       | some i => (i : Int)
       | none => -1) := by
  have h := idxOf_nat pat buf 0
  simpa using h

theorem subarrayInt_nat (buf : List Nat) (a b : Nat) :
    subarrayInt buf (a : Int) (b : Int) = (buf.take b).drop a := by
  unfold subarrayInt
  rw [if_neg (by omega), if_neg (by omega), Int.toNat_ofNat, Int.toNat_ofNat]

/-- If `"111 0 obj"` does not occur in the buffer at all, the extraction
run stops at the boundary check. -/
theorem extract_no111_boundaryFail (inf : List Nat → Option (List Nat)) (pdfData : List Nat)
    (h : firstOccurFrom obj111Pat pdfData 0 = none) :
    extractRun inf pdfData = ExtractResult.boundaryFail := by
  have h1 : obj111StartOf pdfData = -1 := by
    unfold obj111StartOf
    rw [idxOf_zero, h]
  unfold extractRun
  rw [if_pos (Or.inl h1)]

/-! ## Claim C6: xref location and embed failure -/

/-- C6: the embedder's insertion point is the offset of the first
occurrence of `"xref"` in the input buffer; when `"xref"` is absent the
embed fails with the `StructureInvalid` error (the thrown
`"XREF table not found - invalid PDF format"`) and produces no output
buffer. -/
theorem c6_xref_location (pdfData compressedImage : List Nat) :
    (firstOccurFrom xrefPat pdfData 0 = none →
      embedBytes pdfData compressedImage =
        Except.error "XREF table not found - invalid PDF format") ∧
    (∀ x, firstOccurFrom xrefPat pdfData 0 = some x →
      embedBytes pdfData compressedImage =
        Except.ok (splice pdfData (buildObject (newObjNum pdfData) compressedImage) x) ∧
      patAt xrefPat pdfData x ∧
      ∀ j, j < x → ¬ patAt xrefPat pdfData j) := by
  constructor
  · intro h
    unfold embedBytes
    rw [h]
  · intro x h
    refine ⟨by unfold embedBytes; rw [h], (firstOccurFrom_eq_some _ _ _ _ h).2.1,
      fun j hj => (firstOccurFrom_eq_some _ _ _ _ h).2.2 j (Nat.zero_le _) hj⟩

/-- Witness for C6: in `"ab xref xref"` the insertion point is the first
`"xref"` (offset 3), and offset 2 is not an occurrence. -/
theorem c6_xref_location_witness :
    embedBytes (strBytes "ab xref xref") [1, 2] =
      Except.ok (splice (strBytes "ab xref xref")
        (buildObject (newObjNum (strBytes "ab xref xref")) [1, 2]) 3) ∧
    patAt xrefPat (strBytes "ab xref xref") 3 ∧
    ¬ patAt xrefPat (strBytes "ab xref xref") 2 := by
  have h := (c6_xref_location (strBytes "ab xref xref") [1, 2]).2 3 (by decide)
  exact ⟨h.1, h.2.1, h.2.2 2 (by decide)⟩

/-! ## Claim C7: extraction on a buffer without the expected object -/

/-- C7: when the buffer contains no `"111 0 obj"` declaration (the
expected object number of the extraction script), the run takes the
boundary-failure branch: `process.exit(1)`, no output file written. -/
theorem c7_missing_object (inf : List Nat → Option (List Nat)) (pdfData : List Nat)
    (h : firstOccurFrom obj111Pat pdfData 0 = none) :
    extractRun inf pdfData = ExtractResult.boundaryFail :=
  extract_no111_boundaryFail inf pdfData h

/-- Witness for C7 on the buffer `"hello"`. -/
theorem c7_missing_object_witness :
    extractRun (fun _ => none) (strBytes "hello") = ExtractResult.boundaryFail :=
  c7_missing_object (fun _ => none) (strBytes "hello") (by decide)

/-! ## Claim C8: decompression failure handling -/

/-- C8: whenever the boundary check passes, the isolated slice starts
with `0x78`, and the inflate primitive rejects it (throws, modelled by
`none`), the run ends in the caught-error branch: the raw still
compressed slice is written to `raw_stream.bin` and the failure is
reported; the error does not propagate (no `crash` outcome). -/
theorem c8_inflate_failure (inf : List Nat → Option (List Nat)) (pdfData : List Nat)
    (h1 : obj111StartOf pdfData ≠ -1) (h2 : streamStartOf pdfData ≠ -1)
    (h3 : endstreamPosOf pdfData ≠ -1)
    (h78 : (streamDataOf pdfData)[0]? = some 0x78)
    (hinf : inf (streamDataOf pdfData) = none) :
    extractRun inf pdfData = ExtractResult.inflateFail (streamDataOf pdfData) := by
  unfold extractRun
  rw [if_neg (by push_neg; exact ⟨h1, h2, h3⟩), if_pos h78, hinf]

/-- Witness for C8: a buffer whose stream slice is the single byte
`0x78` and an inflate that always throws. -/
theorem c8_inflate_failure_witness :
    extractRun (fun _ => none)
        (strBytes "111 0 obj\nstream\n" ++ [0x78] ++ strBytes "\nendstream") =
      ExtractResult.inflateFail
        (streamDataOf (strBytes "111 0 obj\nstream\n" ++ [0x78] ++ strBytes "\nendstream")) :=
  c8_inflate_failure (fun _ => none) _ (by decide) (by decide) (by decide) (by decide) rfl

/-! ## Claim C3: the dead stream-boundary check -/

/-- C3 evaluation: on the buffer `"111 0 obj\nendstream"` the marker
`"stream\n"` is absent (its first-occurrence search from the object
start returns `-1`), yet because the script computes
`indexOf('stream\n', obj111Start) + 7` *before* the `=== -1` check,
`streamStart` is `6` and the boundary check does not fire: the run
proceeds, slices `"obj"` out of the buffer, and ends in the reported
wrong-format branch (writing `raw_stream.bin`) instead of the
BoundaryNotFound termination the spec describes. -/
theorem c3_dead_check_eval :
    idxOf streamPat (strBytes "111 0 obj\nendstream") 0 = -1 ∧
    streamStartOf (strBytes "111 0 obj\nendstream") = 6 ∧
    extractRun (fun _ => none) (strBytes "111 0 obj\nendstream") =
      ExtractResult.notZlib (strBytes "obj") := by
  exact ⟨by decide, by decide, by decide⟩

/-! ## Claim C9: wrong-format handling and the empty slice -/

/-- C9 evaluation: on `"111 0 obj\nstream\n\nendstream"` the isolated
slice is empty, so `streamData[0]` is `undefined`; the not-zlib branch
then evaluates `streamData[0].toString(16)` and throws an uncaught
`TypeError` — the run crashes before writing any diagnostic file,
contradicting the claim that an empty slice is persisted and reported. -/
theorem c9_empty_slice_crash_eval :
    streamDataOf (strBytes "111 0 obj\nstream\n\nendstream") = [] ∧
    extractRun (fun _ => none) (strBytes "111 0 obj\nstream\n\nendstream") =
      ExtractResult.crash := by
  exact ⟨by decide, by decide⟩

/-- C9, general positive part: for every *nonempty* slice whose first
byte is not `0x78`, the run does end in the reported wrong-format
outcome with the raw slice preserved. -/
theorem c9_nonempty_not_zlib (inf : List Nat → Option (List Nat)) (pdfData : List Nat)
    (h1 : obj111StartOf pdfData ≠ -1) (h2 : streamStartOf pdfData ≠ -1)
    (h3 : endstreamPosOf pdfData ≠ -1)
    (hne : streamDataOf pdfData ≠ [])
    (h78 : (streamDataOf pdfData)[0]? ≠ some 0x78) :
    extractRun inf pdfData = ExtractResult.notZlib (streamDataOf pdfData) := by
  unfold extractRun
  rw [if_neg (by push_neg; exact ⟨h1, h2, h3⟩), if_neg h78]
  match heq : streamDataOf pdfData with
  | [] => exact absurd heq hne
  | b :: rest => rfl

/-! ## Claim C10: the extractor's fixed target object number -/

/-- C10: the extraction script searches only for the fixed literal
`"111 0 obj"`.  Whatever object number the embedder computed and
returned, if the embedded output does not contain that literal the run
ends at the boundary check — extraction is driven by the constant 111,
not by the embedder's `newObjNum`. -/
theorem c10_fixed_target (F C : List Nat) (inf : List Nat → Option (List Nat)) (x : Nat)
    (hx : firstOccurFrom xrefPat F 0 = some x)
    (h111 : firstOccurFrom obj111Pat (splice F (buildObject (newObjNum F) C) x) 0 = none) :
    embedBytes F C = Except.ok (splice F (buildObject (newObjNum F) C) x) ∧
    extractRun inf (splice F (buildObject (newObjNum F) C) x) =
      ExtractResult.boundaryFail := by
  constructor
  · unfold embedBytes
    rw [hx]
  · exact extract_no111_boundaryFail inf _ h111

/-- Witness for C10: embedding into `"5 0 obj\nxref"` assigns object
number 6; the output contains no `"111 0 obj"`, so extraction fails at
the boundary check. -/
theorem c10_fixed_target_witness :
    embedBytes (strBytes "5 0 obj\nxref") [9] =
      Except.ok (splice (strBytes "5 0 obj\nxref")
        (buildObject (newObjNum (strBytes "5 0 obj\nxref")) [9]) 8) ∧
    extractRun (fun _ => none)
      (splice (strBytes "5 0 obj\nxref")
        (buildObject (newObjNum (strBytes "5 0 obj\nxref")) [9]) 8) =
      ExtractResult.boundaryFail :=
  c10_fixed_target (strBytes "5 0 obj\nxref") [9] (fun _ => none) 8 (by decide) (by decide)

/-! ## Claim C1, counterexample: the unconditional round trip fails -/

/-- C1 counterexample: take the classic-structure buffer
`"1 0 obj\nxref"` (one object, an xref keyword) and the payload
`P = [0xFF, 0xD8]` whose compressed form is `[0x78]` under a codec pair
with `inflate [0x78] = some [0xFF, 0xD8]`.  Embedding succeeds and
assigns object number 2, but the extraction pipeline searches for
`"111 0 obj"`, finds nothing, and exits at the boundary check — it does
not recover `P`. -/
theorem c1_roundtrip_counterexample :
    (fun c => if c = [0x78] then some [0xFF, 0xD8] else none) [0x78] =
      some [0xFF, 0xD8] ∧
    embedBytes (strBytes "1 0 obj\nxref") [0x78] =
      Except.ok (splice (strBytes "1 0 obj\nxref") (buildObject 2 [0x78]) 8) ∧
    extractRun (fun c => if c = [0x78] then some [0xFF, 0xD8] else none)
        (splice (strBytes "1 0 obj\nxref") (buildObject 2 [0x78]) 8) =
      ExtractResult.boundaryFail ∧
    extractRun (fun c => if c = [0x78] then some [0xFF, 0xD8] else none)
        (splice (strBytes "1 0 obj\nxref") (buildObject 2 [0x78]) 8) ≠
      ExtractResult.success [0xFF, 0xD8] := by
  refine ⟨rfl, rfl, by decide, by decide⟩

/-! ## Claim C1: round trip — supporting analysis of the inserted object

The inserted object for object number 111 is
`lenPrefix ++ decBytes L ++ filterSuffix ++ C ++ endstreamPat ++ endobjTail`,
and the extraction pipeline walks it marker by marker.  The lemmas here
pin down where each marker can occur inside the inserted bytes. -/

/-- `"111 0 obj\n<< /Length "` — the object header up to the length digits. -/
def lenPrefix : List Nat := strBytes "111 0 obj\n<< /Length "

/-- `" /Filter /FlateDecode >>\nstream\n"` — the header after the digits. -/
def filterSuffix : List Nat := strBytes " /Filter /FlateDecode >>\nstream\n"

/-- `filterSuffix` without its trailing `"stream\n"` marker. -/
def filterSuffixA : List Nat := strBytes " /Filter /FlateDecode >>\n"

/-- `"\nendobj\n"` — the footer after its `"\nendstream"` marker. -/
def endobjTail : List Nat := strBytes "\nendobj\n"

theorem objHeader_111 (L : Nat) :
    objHeader 111 L = lenPrefix ++ (decBytes L ++ filterSuffix) := by
  unfold objHeader filterSuffix
  rw [show lenPrefix = decBytes 111 ++ strBytes " 0 obj\n<< /Length " from by decide]
  simp [List.append_assoc]

theorem objFooter_split : objFooter = endstreamPat ++ endobjTail := by decide

theorem filterSuffix_split : filterSuffix = filterSuffixA ++ streamPat := by decide

theorem lenPrefix_split : lenPrefix = obj111Pat ++ strBytes "\n<< /Length " := by decide

theorem patAt_of_take {pat F : List Nat} {x j : Nat} (hp : pat ≠ [])
    (h : patAt pat (F.take x) j) : patAt pat F j := by
  have hb := patAt_le h
  have hp1 : 0 < pat.length := List.length_pos.mpr hp
  have h2 := patAt_append_left (B := F.drop x) h (by omega)
  rwa [List.take_append_drop] at h2

theorem streamPat_no_digit : ∀ b ∈ streamPat, ¬(48 ≤ b ∧ b ≤ 57) := by decide

/-- Inside the inserted header for object 111, the only occurrence of
`"stream\n"` is the trailing marker: the fixed parts contain no other
occurrence (checked by computation) and the length digits (any nonempty
run of digit bytes `D`) cannot take part in one, because `"stream\n"`
has no digit byte. -/
theorem header_stream_unique (D : List Nat) (hDne : D ≠ [])
    (hDdig : ∀ b ∈ D, 48 ≤ b ∧ b ≤ 57) (r : Nat)
    (h : patAt streamPat (lenPrefix ++ (D ++ filterSuffix)) r) :
    r = 21 + D.length + 25 := by
  have hsl : streamPat.length = 7 := rfl
  have hlp : lenPrefix.length = 21 := rfl
  have hfs : filterSuffix.length = 32 := rfl
  have hdl1 : 1 ≤ D.length := List.length_pos.mpr hDne
  by_cases hA : r + 7 ≤ 21
  · have h1 : patAt streamPat lenPrefix r :=
      patAt_of_append_left h (by simp only [hsl, hlp]; omega)
    exact absurd h1
      ((by decide : ∀ r', r' < 15 → ¬ patAt streamPat lenPrefix r') r (by omega))
  · by_cases hB : 21 + D.length ≤ r
    · have h1 : patAt streamPat (D ++ filterSuffix) (r - 21) :=
        patAt_of_append_right h (by simp only [hlp]; omega)
      have h2 : patAt streamPat filterSuffix (r - 21 - D.length) :=
        patAt_of_append_right h1 (by omega)
      have hb2 := patAt_le h2
      simp only [hsl, hfs] at hb2
      have h3 : r - 21 - D.length = 25 :=
        (by decide : ∀ r', r' < 33 → patAt streamPat filterSuffix r' → r' = 25)
          _ (by omega) h2
      omega
    · push_neg at hA hB
      have hkex : ∃ k, k < 7 ∧ 21 ≤ r + k ∧ r + k < 21 + D.length := by
        by_cases hr : r < 21
        · exact ⟨21 - r, by omega, by omega, by omega⟩
        · exact ⟨0, by omega, by omega, by omega⟩
      obtain ⟨k, hk7, hk1, hk2⟩ := hkex
      have e1 := patAt_getElem? h k (by omega)
      rw [List.getElem?_append, if_neg (by simp only [hlp]; omega)] at e1
      simp only [hlp] at e1
      rw [List.getElem?_append, if_pos (by omega)] at e1
      have hk7s : k < streamPat.length := by omega
      obtain ⟨v, hv⟩ : ∃ v, streamPat[k]? = some v :=
        ⟨streamPat[k], (List.getElem?_eq_some_getElem_iff _ _ hk7s).mpr trivial⟩
      rw [hv] at e1
      have hdig := hDdig v (List.getElem?_mem e1)
      exact absurd hdig (streamPat_no_digit v (List.getElem?_mem hv))

/-- Core of the amended round trip: running the extraction script on
`A ++ objectFor111 ++ T`, where the inserted object carries a nonempty
digit run `D` as its `/Length` text and `A` contains no `"111 0 obj"`,
locates exactly the inserted markers, slices out exactly `C`, inflates
it to `P`, and (given the JPEG magic) succeeds with `P`. -/
theorem extract_on_embedded (A D C P T : List Nat) (inf : List Nat → Option (List Nat))
    (hDne : D ≠ []) (hDdig : ∀ b ∈ D, 48 ≤ b ∧ b ≤ 57)
    (hA111 : ∀ j, ¬ patAt obj111Pat A j)
    (hCe : ∀ m, ¬ patAt endstreamPat C m)
    (h78 : C[0]? = some 0x78)
    (hinf : inf C = some P)
    (hP0 : P[0]? = some 0xFF) (hP1 : P[1]? = some 0xD8) :
    extractRun inf
      (A ++ (lenPrefix ++ (D ++ (filterSuffix ++ (C ++ (endstreamPat ++ (endobjTail ++ T))))))) =
      ExtractResult.success P := by
  have hlp : lenPrefix.length = 21 := rfl
  have hfs : filterSuffix.length = 32 := rfl
  have hfsa : filterSuffixA.length = 25 := rfl
  have ho9 : obj111Pat.length = 9 := rfl
  have hsl : streamPat.length = 7 := rfl
  have hel : endstreamPat.length = 10 := rfl
  have hdl1 : 1 ≤ D.length := List.length_pos.mpr hDne
  set E := endstreamPat ++ (endobjTail ++ T) with hE
  set OUT := A ++ (lenPrefix ++ (D ++ (filterSuffix ++ (C ++ E)))) with hOUT
  -- alternative decompositions of the output buffer
  have hshape1 : OUT =
      A ++ (obj111Pat ++ (strBytes "\n<< /Length " ++ (D ++ (filterSuffix ++ (C ++ E))))) := by
    rw [hOUT, lenPrefix_split]
    simp [List.append_assoc]
  have hshape2 : OUT =
      (A ++ (lenPrefix ++ (D ++ filterSuffixA))) ++ (streamPat ++ (C ++ E)) := by
    rw [hOUT, filterSuffix_split]
    simp [List.append_assoc]
  have hshape4 : OUT = (A ++ (lenPrefix ++ (D ++ filterSuffix))) ++ (C ++ E) := by
    rw [hOUT]
    simp [List.append_assoc]
  have hB2len : (A ++ (lenPrefix ++ (D ++ filterSuffixA))).length = A.length + 46 + D.length := by
    simp only [List.length_append, hlp, hfsa]
    omega
  have hB3len : (A ++ (lenPrefix ++ (D ++ filterSuffix))).length = A.length + 53 + D.length := by
    simp only [List.length_append, hlp, hfs]
    omega
  have hB3Clen : ((A ++ (lenPrefix ++ (D ++ filterSuffix))) ++ C).length =
      A.length + 53 + D.length + C.length := by
    simp only [List.length_append, hlp, hfs]
    omega
  -- Step 1: the first "111 0 obj" is at the start of the inserted object
  have hobjOcc : patAt obj111Pat OUT A.length := by
    rw [hshape1]
    have h1 := patAt_append_right (A := A)
      (patAt_self_head obj111Pat
        (strBytes "\n<< /Length " ++ (D ++ (filterSuffix ++ (C ++ E)))))
    rwa [Nat.add_zero] at h1
  have hobjMin : ∀ j, j < A.length → ¬ patAt obj111Pat OUT j := by
    intro j hj hpat
    by_cases hcase : j + 9 ≤ A.length
    · have h1 : patAt obj111Pat A j := by
        rw [hOUT] at hpat
        exact patAt_of_append_left hpat (by simp only [ho9]; omega)
      exact hA111 j h1
    · push_neg at hcase
      obtain ⟨m, hm9, hdm, hne⟩ :=
        (by decide : ∀ d, d < 9 → 1 ≤ d → ∃ m, m < 9 ∧ d + m < 9 ∧
            obj111Pat[d + m]? ≠ obj111Pat[m]?) (A.length - j) (by omega) (by omega)
      have houtN : ∀ k, k < 9 → OUT[A.length + k]? = obj111Pat[k]? := by
        intro k hk
        rw [hshape1, List.getElem?_append, if_neg (by omega),
          show A.length + k - A.length = k by omega,
          List.getElem?_append, if_pos (by simp only [ho9]; omega)]
      have e1 := patAt_getElem? hpat (A.length - j + m) (by simp only [ho9]; omega)
      rw [show j + (A.length - j + m) = A.length + m by omega,
        houtN m (by omega)] at e1
      exact hne e1.symm
  have hfoc1 : firstOccurFrom obj111Pat OUT 0 = some A.length :=
    firstOccurFrom_eq_some_of _ _ _ _ (by decide) hobjOcc (Nat.zero_le _)
      (fun j _ hj => hobjMin j hj)
  -- Step 2: the first "stream\n" at or after it is the header's trailing marker
  have hstrOcc : patAt streamPat OUT (A.length + 46 + D.length) := by
    rw [hshape2]
    have h1 := patAt_append_right (A := A ++ (lenPrefix ++ (D ++ filterSuffixA)))
      (patAt_self_head streamPat (C ++ E))
    rwa [Nat.add_zero, hB2len] at h1
  have hstrMin : ∀ j, A.length ≤ j → j < A.length + 46 + D.length →
      ¬ patAt streamPat OUT j := by
    intro j hj1 hj2 hpat
    rw [hOUT] at hpat
    have h1 := patAt_of_append_right hpat hj1
    have h2 : patAt streamPat ((lenPrefix ++ (D ++ filterSuffix)) ++ (C ++ E))
        (j - A.length) := by
      simpa [List.append_assoc] using h1
    have h3 : patAt streamPat (lenPrefix ++ (D ++ filterSuffix)) (j - A.length) :=
      patAt_of_append_left h2
        (by simp only [List.length_append, hlp, hfs, hsl]; omega)
    have h4 := header_stream_unique D hDne hDdig (j - A.length) h3
    omega
  have hfoc2 : firstOccurFrom streamPat OUT A.length = some (A.length + 46 + D.length) :=
    firstOccurFrom_eq_some_of _ _ _ _ (by decide) hstrOcc (by omega) hstrMin
  -- Step 3: the first "\nendstream" at or after the stream start is the footer's
  have hendOcc : patAt endstreamPat OUT (A.length + 53 + D.length + C.length) := by
    have h0 : patAt endstreamPat E 0 := by
      rw [hE]
      exact patAt_self_head _ _
    have h1 := patAt_append_right (A := (A ++ (lenPrefix ++ (D ++ filterSuffix))) ++ C) h0
    rw [Nat.add_zero, hB3Clen] at h1
    rw [hshape4]
    simpa [List.append_assoc] using h1
  have hendMin : ∀ j, A.length + 53 + D.length ≤ j →
      j < A.length + 53 + D.length + C.length → ¬ patAt endstreamPat OUT j := by
    intro j hj1 hj2 hpat
    have h2 : patAt endstreamPat ((A ++ (lenPrefix ++ (D ++ filterSuffix))) ++ (C ++ E)) j := by
      rw [hshape4] at hpat
      simpa [List.append_assoc] using hpat
    have h3 := patAt_of_append_right h2 (by rw [hB3len]; omega)
    rw [hB3len] at h3
    by_cases hcase : (j - (A.length + 53 + D.length)) + 10 ≤ C.length
    · have h4 : patAt endstreamPat C (j - (A.length + 53 + D.length)) :=
        patAt_of_append_left h3 (by simp only [hel]; omega)
      exact hCe _ h4
    · push_neg at hcase
      have hmC : j - (A.length + 53 + D.length) < C.length := by omega
      have e1 := patAt_getElem? h3 (C.length - (j - (A.length + 53 + D.length)))
        (by simp only [hel]; omega)
      rw [show (j - (A.length + 53 + D.length)) +
            (C.length - (j - (A.length + 53 + D.length))) = C.length by omega,
        List.getElem?_append, if_neg (by omega), Nat.sub_self, hE,
        List.getElem?_append, if_pos (by simp only [hel]; omega),
        show endstreamPat[0]? = some 10 from rfl] at e1
      exact (by decide : ∀ k, k < 10 → 1 ≤ k → endstreamPat[k]? ≠ some 10)
        _ (by omega) (by omega) e1.symm
  have hfoc3 : firstOccurFrom endstreamPat OUT (A.length + 53 + D.length) =
      some (A.length + 53 + D.length + C.length) :=
    firstOccurFrom_eq_some_of _ _ _ _ (by decide) hendOcc (by omega) hendMin
  -- Step 4: the three computed indices
  have hOS : obj111StartOf OUT = (A.length : Int) := by
    unfold obj111StartOf
    rw [idxOf_zero, hfoc1]
  have hSS : streamStartOf OUT = ((A.length + 53 + D.length : Nat) : Int) := by
    unfold streamStartOf
    rw [hOS, idxOf_nat, hfoc2]
    show ((A.length + 46 + D.length : Nat) : Int) + 7 = ((A.length + 53 + D.length : Nat) : Int)
    push_cast
    ring
  have hEP : endstreamPosOf OUT = ((A.length + 53 + D.length + C.length : Nat) : Int) := by
    unfold endstreamPosOf
    rw [hSS, idxOf_nat, hfoc3]
  -- Step 5: the isolated slice is exactly C
  have hSD : streamDataOf OUT = C := by
    unfold streamDataOf
    rw [hSS, hEP, subarrayInt_nat, List.drop_take,
      show A.length + 53 + D.length + C.length - (A.length + 53 + D.length) = C.length by omega,
      hshape4, List.drop_left' hB3len, List.take_left' rfl]
  -- Step 6: follow the branches of the extractor
  have hnotneg : ¬(obj111StartOf OUT = -1 ∨ streamStartOf OUT = -1 ∨
      endstreamPosOf OUT = -1) := by
    rw [hOS, hSS, hEP]
    push_neg
    refine ⟨by omega, by omega, by omega⟩
  unfold extractRun
  rw [if_neg hnotneg, hSD, if_pos h78, hinf]
  show (if P[0]? = some 0xFF ∧ P[1]? = some 0xD8 then ExtractResult.success P
    else ExtractResult.notJpeg P) = ExtractResult.success P
  rw [if_pos ⟨hP0, hP1⟩]

/-- C1, amended: the round trip `extract (embed F C) = P` holds under
the conditions the counterexample and the marker searches force — the
original PDF's highest matched object number is 110 (so the embedder
assigns exactly the extractor's hardwired object number 111), the
original contains no literal `"111 0 obj"`, the compressed payload
contains no `"\nendstream"`, starts with the zlib byte `0x78`, and the
codec pair inverts (`inf C = some P`) with `P` carrying the JPEG magic
`FF D8`. -/
theorem c1_roundtrip_amended (F C P : List Nat) (inf : List Nat → Option (List Nat)) (x : Nat)
    (hx : firstOccurFrom xrefPat F 0 = some x)
    (hnum : findHighestObjectNumber F = 110)
    (h111F : firstOccurFrom obj111Pat F 0 = none)
    (hCend : firstOccurFrom endstreamPat C 0 = none)
    (h78 : C[0]? = some 0x78)
    (hinf : inf C = some P)
    (hP0 : P[0]? = some 0xFF) (hP1 : P[1]? = some 0xD8) :
    embedBytes F C = Except.ok (splice F (buildObject (newObjNum F) C) x) ∧
    extractRun inf (splice F (buildObject (newObjNum F) C) x) =
      ExtractResult.success P := by
  have h111 : newObjNum F = 111 := by
    unfold newObjNum
    rw [hnum]
  refine ⟨by unfold embedBytes; rw [hx], ?_⟩
  have hsplice : splice F (buildObject (newObjNum F) C) x =
      F.take x ++ (lenPrefix ++ (decBytes C.length ++ (filterSuffix ++
        (C ++ (endstreamPat ++ (endobjTail ++ F.drop x)))))) := by
    rw [h111]
    unfold splice buildObject
    rw [objHeader_111, objFooter_split]
    simp [List.append_assoc]
  rw [hsplice]
  apply extract_on_embedded
  · exact decBytes_ne_nil _
  · exact decBytes_digits _
  · intro j hpat
    exact firstOccurFrom_eq_none _ _ _ (by decide) h111F j (Nat.zero_le _)
      (patAt_of_take (by decide) hpat)
  · intro m hpat
    exact firstOccurFrom_eq_none _ _ _ (by decide) hCend m (Nat.zero_le _) hpat
  · exact h78
  · exact hinf
  · exact hP0
  · exact hP1

/-- Witness for the amended C1: embedding the compressed payload
`[0x78]` into `"110 0 obj\nxref"` (highest object number 110) and
extracting with an inflate that maps `[0x78]` back to the JPEG-magic
payload `[0xFF, 0xD8]` recovers the payload exactly. -/
theorem c1_roundtrip_amended_witness :
    embedBytes (strBytes "110 0 obj\nxref") [0x78] =
      Except.ok (splice (strBytes "110 0 obj\nxref")
        (buildObject (newObjNum (strBytes "110 0 obj\nxref")) [0x78]) 10) ∧
    extractRun (fun c => if c = [0x78] then some [0xFF, 0xD8] else none)
        (splice (strBytes "110 0 obj\nxref")
          (buildObject (newObjNum (strBytes "110 0 obj\nxref")) [0x78]) 10) =
      ExtractResult.success [0xFF, 0xD8] :=
  c1_roundtrip_amended (strBytes "110 0 obj\nxref") [0x78] [0xFF, 0xD8]
    (fun c => if c = [0x78] then some [0xFF, 0xD8] else none) 10
    (by decide) (by decide) (by decide) (by decide) (by decide) rfl rfl rfl
